import Mathlib

/-!
Verification development for the duca corpus browser (src/main.rs, src/tui.rs).

The document model, the deterministic search engine, and the TUI state
machine are embedded shallowly:

* Rust `HashMap<u8, Canto>` is modelled as an association list
  `List (Nat × Canto)`; the hash map carries no iteration-order guarantee
  and the source only ever iterates it after explicitly sorting its keys,
  which the model mirrors.  Key uniqueness (a `HashMap` invariant) is part
  of the well-formedness predicate `CanticaWF`.
* Rust `sort_by` is a stable sort; it is modelled by `List.insertionSort`,
  which is stable for the non-strict comparators used here.
* Machine integers: canto numbers (`u8`) and line numbers (`usize`) are
  modelled as `Nat` (the source performs no arithmetic on them that could
  wrap).  The TUI scroll offset is a `u16`; its saturating operations and
  the `as u16` cast in `enter_context_view` are modelled explicitly with
  `min _ 65535` and `% 65536`.
* The `regex` crate is an external dependency; a model of the fragment the
  program exercises is given below (`lexLiteral`, `regexEscape`,
  `compileModel`), documented at its definition site.
* The `fuzzy_matcher` crate (SkimMatcherV2) is abstracted as an arbitrary
  function `String → String → Option Int`, matching its `fuzzy_match`
  signature: `none` means the matcher rejects the candidate, `some s`
  means it accepts with score `s`.
-/

/-- Mirrors `struct Verse` (main.rs lines 10-14). -/
structure Verse where
  line_number : Nat
  text : String
deriving DecidableEq

/-- Mirrors `struct Canto` (main.rs lines 16-21). -/
structure Canto where
  number : Nat
  roman_numeral : String
  verses : List Verse
deriving DecidableEq

/-- Mirrors `struct Cantica` (main.rs lines 23-27); the `HashMap<u8, Canto>`
is modelled as an association list (see file header). -/
structure Cantica where
  name : String
  cantos : List (Nat × Canto)
deriving DecidableEq

/-- Mirrors `struct DivinaCommedia` (main.rs lines 29-34). -/
structure DivinaCommedia where
  inferno : Cantica
  purgatorio : Cantica
  paradiso : Cantica
deriving DecidableEq

/-- Mirrors `DivinaCommedia::new` (main.rs lines 74-89): three canticas with
fixed names and empty canto maps.  The Rust signature returns `Self`, not
`Result<Self, _>`: construction is total and cannot signal an error. -/
def DivinaCommedia.new : DivinaCommedia :=
  { inferno := { name := "Inferno", cantos := [] }
    purgatorio := { name := "Purgatorio", cantos := [] }
    paradiso := { name := "Paradiso", cantos := [] } }

/-- A search hit: mirrors the result tuple
`(String, u8, usize, String)` of `DivinaCommedia::search` (main.rs line 95). -/
structure Hit where
  cantica : String
  canto : Nat
  line : Nat
  text : String
deriving DecidableEq

/-! ### Model of the regex-crate fragment

`DivinaCommedia::search` (main.rs lines 96-97) builds its matcher with

  Regex::new(&format!("(?i){}", pattern))
      .unwrap_or_else(|_| Regex::new(&regex::escape(pattern)).unwrap())

The `regex` crate is outside this repository.  The model below covers the
fragment of it that the claims exercise: literal patterns.  A pattern whose
metacharacters are all backslash-escaped compiles to a literal substring
matcher; the `(?i)` flag (modelled as the Boolean `ci` argument, since the
source always prepends exactly that flag on the first attempt) makes the
literal matching case-insensitive via lower-casing (an ASCII approximation
of Unicode case folding); any pattern containing an unescaped metacharacter
is treated as failing to compile.  `regexEscape` mirrors `regex::escape`,
which prepends a backslash to every metacharacter.  The first compilation
attempt carries the case-insensitivity flag; the fallback compilation of
the escaped pattern does not (faithful to line 97, which omits `(?i)`). -/

/-- The metacharacters escaped by `regex::escape` (regex-syntax
`is_meta_character`). -/
def isMeta (c : Char) : Bool :=
  c = '\\' || c = '.' || c = '+' || c = '*' || c = '?' || c = '(' || c = ')' ||
  c = '|' || c = '[' || c = ']' || c = '\x7b' || c = '\x7d' || c = '^' ||
  c = '$' || c = '#' || c = '&' || c = '-' || c = '~'

/-- Mirrors `regex::escape`: every metacharacter is preceded by a backslash. -/
def regexEscape (s : List Char) : List Char :=
  s.flatMap (fun c => if isMeta c then ['\\', c] else [c])

/-- Lexer of the literal regex fragment: succeeds (with the denoted literal
character sequence) iff every metacharacter occurrence is backslash-escaped;
any unescaped metacharacter, dangling backslash, or escape of a
non-metacharacter makes compilation fail in this model. -/
def lexLiteral : List Char → Option (List Char)
  | [] => some []
  | c :: rest =>
    if c = '\\' then
      match rest with
      | [] => none
      | c2 :: rest2 => if isMeta c2 then (lexLiteral rest2).map (c2 :: ·) else none
    else if isMeta c then none
    else (lexLiteral rest).map (c :: ·)

/-- Does the character list `needle` occur at the head of `hay`? -/
def startsWithL : List Char → List Char → Bool
  | [], _ => true
  | _ :: _, [] => false
  | a :: as, b :: bs => a = b && startsWithL as bs

/-- Does the character list `needle` occur anywhere inside `hay`?
(Substring-match semantics of `Regex::is_match` on a literal pattern.) -/
def containsL (needle : List Char) : List Char → Bool
  | [] => startsWithL needle []
  | c :: rest => startsWithL needle (c :: rest) || containsL needle rest

/-- The matcher denoted by a compiled literal pattern: case-insensitive
(lower-casing both sides) when the `(?i)` flag was present, else exact. -/
def litMatcher (ci : Bool) (chars : List Char) : String → Bool :=
  fun text =>
    if ci then containsL (chars.map Char.toLower) (text.data.map Char.toLower)
    else containsL chars text.data

/-- Model of `Regex::new`: `ci` records whether the source prepended the
`(?i)` flag.  Returns `none` when compilation fails. -/
def compileModel (ci : Bool) (pat : List Char) : Option (String → Bool) :=
  (lexLiteral pat).map (litMatcher ci)

/-- The two-stage compilation of main.rs lines 96-97: first the pattern with
the `(?i)` flag, then (on failure) the escaped pattern without the flag. -/
def ducaMatcher (pattern : String) : Option (String → Bool) :=
  match compileModel true pattern.data with
  | some m => some m
  | none => compileModel false (regexEscape pattern.data)

/-! ### The search engine (main.rs lines 91-154) -/

/-- Mirrors the `cantica_order` closure of the result sort
(main.rs lines 131-136). -/
def cantica_order (name : String) : Nat :=
  if name = "Inferno" then 0
  else if name = "Purgatorio" then 1
  else if name = "Paradiso" then 2
  else 3

/-- The composite sort key of a hit: (part rank, section number, line index). -/
def hitKey (h : Hit) : Nat × Nat × Nat :=
  (cantica_order h.cantica, h.canto, h.line)

/-- The comparator of main.rs lines 129-151 as a non-strict order:
lexicographic on (cantica rank, canto number, line number). -/
def hitKeyLE (a b : Hit) : Prop :=
  cantica_order a.cantica < cantica_order b.cantica ∨
    (cantica_order a.cantica = cantica_order b.cantica ∧
      (a.canto < b.canto ∨ (a.canto = b.canto ∧ a.line ≤ b.line)))

/-- Strict version of `hitKeyLE`: the composite keys are strictly increasing. -/
def hitKeyLT (a b : Hit) : Prop :=
  cantica_order a.cantica < cantica_order b.cantica ∨
    (cantica_order a.cantica = cantica_order b.cantica ∧
      (a.canto < b.canto ∨ (a.canto = b.canto ∧ a.line < b.line)))

instance : DecidableRel hitKeyLE := fun a b => by unfold hitKeyLE; infer_instance

instance : DecidableRel hitKeyLT := fun a b => by unfold hitKeyLT; infer_instance

instance : IsTotal Hit hitKeyLE := by
  constructor; intro a b; unfold hitKeyLE; omega

instance : IsTrans Hit hitKeyLE := by
  constructor; intro a b c hab hbc; unfold hitKeyLE at hab hbc ⊢; omega

/-- The canto keys of a cantica in ascending order: mirrors
`canto_numbers.sort()` (main.rs lines 110-111). -/
def Cantica.sortedCantoNumbers (c : Cantica) : List Nat :=
  List.insertionSort (· ≤ ·) (c.cantos.map (fun p => p.1))

/-- Map lookup `cantica.cantos[&canto_number]`, as an option. -/
def Cantica.lookup (c : Cantica) (k : Nat) : Option Canto :=
  (c.cantos.find? (fun p => p.1 == k)).map (fun p => p.2)

/-- The hits a single canto contributes (main.rs lines 115-124): the verses
whose text the matcher accepts, in stored verse order, tagged with the
cantica name and the canto's own `number` field. -/
def Canto.hitsIn (m : String → Bool) (nm : String) (c : Canto) : List Hit :=
  (c.verses.filter (fun v => m v.text)).map
    (fun v => { cantica := nm, canto := c.number, line := v.line_number, text := v.text })

/-- The body of the canto loop (main.rs lines 113-125) for one key: look the
canto up and collect its matching verses.  The `none` branch models the
(unreachable) panic of indexing with a key drawn from the map itself. -/
def Cantica.hitsAt (m : String → Bool) (c : Cantica) (k : Nat) : List Hit :=
  match c.lookup k with
  | some canto => Canto.hitsIn m c.name canto
  | none => []

/-- The hits of one cantica (main.rs lines 108-126): cantos visited in
ascending key order. -/
def Cantica.hits (m : String → Bool) (c : Cantica) : List Hit :=
  c.sortedCantoNumbers.flatMap (c.hitsAt m)

/-- The candidate canticas (main.rs lines 101-106): the match on
`Option<&str>` with arms `Some("inferno")`, `Some("purgatorio")`,
`Some("paradiso")` and a catch-all `_` giving all three in declared order. -/
def candidates (d : DivinaCommedia) (filter : Option String) : List Cantica :=
  match filter with
  | some s =>
    if s = "inferno" then [d.inferno]
    else if s = "purgatorio" then [d.purgatorio]
    else if s = "paradiso" then [d.paradiso]
    else [d.inferno, d.purgatorio, d.paradiso]
  | none => [d.inferno, d.purgatorio, d.paradiso]

/-- The search pipeline after matcher compilation (main.rs lines 99-153):
traverse the candidate canticas, then stably sort all hits by the composite
key. -/
def DivinaCommedia.searchWith (d : DivinaCommedia) (m : String → Bool)
    (filter : Option String) : List Hit :=
  List.insertionSort hitKeyLE ((candidates d filter).flatMap (Cantica.hits m))

/-- Mirrors `DivinaCommedia::search` (main.rs lines 91-154).  The `none`
branch of the matcher models the `unwrap` panic of the fallback compilation;
`ducaMatcher_total` below proves it unreachable. -/
def DivinaCommedia.search (d : DivinaCommedia) (pattern : String)
    (filter : Option String) : List Hit :=
  match ducaMatcher pattern with
  | some m => d.searchWith m filter
  | none => []

/-! ### Document well-formedness

Invariants of the data model as the spec states them (§3): section numbers
are unique and index their sections, line indices are unique within a
section, and the three parts carry their fixed declared names.  The key
uniqueness is also a `HashMap` invariant of the source representation. -/

/-- A canto stored under key `k`: its `number` field equals the key and its
verse line numbers are distinct. -/
def CantoWF (k : Nat) (c : Canto) : Prop :=
  c.number = k ∧ (c.verses.map (fun v => v.line_number)).Nodup

/-- A cantica: distinct canto keys, each stored canto well-formed. -/
def CanticaWF (c : Cantica) : Prop :=
  (c.cantos.map (fun p => p.1)).Nodup ∧ ∀ p ∈ c.cantos, CantoWF p.1 p.2

/-- A document: the three fixed part names and three well-formed canticas. -/
def DocWF (d : DivinaCommedia) : Prop :=
  d.inferno.name = "Inferno" ∧ d.purgatorio.name = "Purgatorio" ∧
  d.paradiso.name = "Paradiso" ∧
  CanticaWF d.inferno ∧ CanticaWF d.purgatorio ∧ CanticaWF d.paradiso

instance (k : Nat) (c : Canto) : Decidable (CantoWF k c) := by
  unfold CantoWF; infer_instance

instance (c : Cantica) : Decidable (CanticaWF c) := by
  unfold CanticaWF; infer_instance

instance (d : DivinaCommedia) : Decidable (DocWF d) := by
  unfold DocWF; infer_instance

/-! ### Totality of matcher compilation -/

/-- Escaping then lexing recovers the original literal: the fallback
compilation of main.rs line 97 always succeeds. -/
theorem lexLiteral_regexEscape (l : List Char) : lexLiteral (regexEscape l) = some l := by
  induction l with
  | nil => rfl
  | cons c rest ih =>
    by_cases hc : isMeta c
    · have hmeta : regexEscape (c :: rest) = '\\' :: c :: regexEscape rest := by
        simp [regexEscape, hc]
      rw [hmeta, lexLiteral.eq_def]
      simp [hc, ih]
    · have hne : ¬ (c = '\\') := by
        intro h; subst h; simp [isMeta] at hc
      have hrw : regexEscape (c :: rest) = c :: regexEscape rest := by
        simp [regexEscape, hc]
      rw [hrw, lexLiteral.eq_def]
      simp [hc, hne, ih]

/-- The two-stage compilation always produces a matcher. -/
theorem ducaMatcher_total (p : String) : ∃ m, ducaMatcher p = some m := by
  unfold ducaMatcher
  cases h : compileModel true p.data with
  | some m => exact ⟨m, rfl⟩
  | none =>
    refine ⟨litMatcher false p.data, ?_⟩
    unfold compileModel
    rw [lexLiteral_regexEscape]
    rfl

/-! ### Ordering machinery for the search result -/

/-- Every hit contributed by one canto carries the given cantica name and the
canto's own number. -/
theorem Canto.hitsIn_fields (m : String → Bool) (nm : String) (c : Canto) :
    ∀ h ∈ Canto.hitsIn m nm c, h.cantica = nm ∧ h.canto = c.number := by
  intro h hh
  unfold Canto.hitsIn at hh
  simp only [List.mem_map, List.mem_filter] at hh
  obtain ⟨v, _, rfl⟩ := hh
  exact ⟨rfl, rfl⟩

/-- Within one canto with distinct line numbers, the (canto, line) pairs of
its hits are distinct. -/
theorem Canto.hitsIn_pair_nodup (m : String → Bool) (nm : String) (c : Canto)
    (hn : (c.verses.map (fun v => v.line_number)).Nodup) :
    ((Canto.hitsIn m nm c).map (fun h => (h.canto, h.line))).Nodup := by
  unfold Canto.hitsIn
  rw [List.map_map]
  have hrw : ((fun h : Hit => (h.canto, h.line)) ∘
      (fun v : Verse =>
        ({ cantica := nm, canto := c.number, line := v.line_number, text := v.text } : Hit))) =
      (fun l : Nat => (c.number, l)) ∘ (fun v : Verse => v.line_number) := rfl
  rw [hrw, ← List.map_map]
  have hsub : ((c.verses.filter (fun v => m v.text)).map (fun v => v.line_number)).Nodup :=
    hn.sublist ((List.filter_sublist c.verses).map _)
  exact hsub.map (fun a b hab => by simpa using hab)

/-- A successful lookup returns a stored key-canto pair. -/
theorem Cantica.lookup_mem {c : Cantica} {k : Nat} {canto : Canto}
    (h : c.lookup k = some canto) : (k, canto) ∈ c.cantos := by
  unfold Cantica.lookup at h
  cases hf : c.cantos.find? (fun p => p.1 == k) with
  | none => rw [hf] at h; simp at h
  | some p =>
    rw [hf] at h
    have hp := List.find?_some hf
    have hmem : p ∈ c.cantos := List.mem_of_find?_eq_some hf
    obtain ⟨a, b⟩ := p
    have ha : a = k := by simpa using hp
    have hb : b = canto := by simpa using h
    rw [← ha, ← hb]
    exact hmem

/-- Hits contributed at key `k` carry the cantica's name. -/
theorem Cantica.hitsAt_name {c : Cantica} (m : String → Bool) (k : Nat) :
    ∀ h ∈ c.hitsAt m k, h.cantica = c.name := by
  intro h hh
  unfold Cantica.hitsAt at hh
  cases hl : c.lookup k with
  | none => rw [hl] at hh; simp at hh
  | some canto =>
    rw [hl] at hh
    exact (Canto.hitsIn_fields m c.name canto h hh).1

/-- Under well-formedness, hits contributed at key `k` have canto number `k`. -/
theorem Cantica.hitsAt_canto {c : Cantica} (hwf : CanticaWF c) (m : String → Bool) (k : Nat) :
    ∀ h ∈ c.hitsAt m k, h.canto = k := by
  intro h hh
  unfold Cantica.hitsAt at hh
  cases hl : c.lookup k with
  | none => rw [hl] at hh; simp at hh
  | some canto =>
    rw [hl] at hh
    have hmem := Cantica.lookup_mem hl
    have hcwf := hwf.2 _ hmem
    rw [(Canto.hitsIn_fields m c.name canto h hh).2]
    exact hcwf.1

/-- Under well-formedness, the (canto, line) pairs at one key are distinct. -/
theorem Cantica.hitsAt_pair_nodup {c : Cantica} (hwf : CanticaWF c)
    (m : String → Bool) (k : Nat) :
    ((c.hitsAt m k).map (fun h => (h.canto, h.line))).Nodup := by
  unfold Cantica.hitsAt
  cases hl : c.lookup k with
  | none => simp
  | some canto =>
    have hmem := Cantica.lookup_mem hl
    have hcwf := hwf.2 _ hmem
    exact Canto.hitsIn_pair_nodup m c.name canto hcwf.2

/-- Every hit of a cantica carries that cantica's name. -/
theorem Cantica.hits_name {c : Cantica} (m : String → Bool) :
    ∀ h ∈ c.hits m, h.cantica = c.name := by
  intro h hh
  unfold Cantica.hits at hh
  rw [List.mem_flatMap] at hh
  obtain ⟨k, _, hk⟩ := hh
  exact Cantica.hitsAt_name m k h hk

/-- Under well-formedness, the (canto, line) pairs of a whole cantica's hits
are distinct: distinct sorted keys contribute disjoint canto components. -/
theorem Cantica.hits_pair_nodup {c : Cantica} (hwf : CanticaWF c) (m : String → Bool) :
    ((c.hits m).map (fun h => (h.canto, h.line))).Nodup := by
  unfold Cantica.hits
  rw [List.map_flatMap]
  refine List.nodup_flatMap.2 ⟨?_, ?_⟩
  · intro k _
    exact Cantica.hitsAt_pair_nodup hwf m k
  · have hks : c.sortedCantoNumbers.Nodup := by
      unfold Cantica.sortedCantoNumbers
      exact (List.perm_insertionSort (· ≤ ·) (c.cantos.map (fun p => p.1))).nodup_iff.2 hwf.1
    refine hks.imp ?_
    intro a b hab
    intro x hxa hxb
    rw [List.mem_map] at hxa hxb
    obtain ⟨ha, hha, rfl⟩ := hxa
    obtain ⟨hb, hhb, hEq⟩ := hxb
    apply hab
    have h1 : ha.canto = a := Cantica.hitsAt_canto hwf m a ha hha
    have h2 : hb.canto = b := Cantica.hitsAt_canto hwf m b hb hhb
    have : ha.canto = hb.canto := (congrArg Prod.fst hEq).symm
    omega

/-- Distinct (canto, line) pairs give distinct composite keys. -/
theorem key_nodup_of_pair (L : List Hit)
    (h : (L.map (fun x => (x.canto, x.line))).Nodup) : (L.map hitKey).Nodup := by
  have h1 := List.pairwise_map.1 h
  refine List.pairwise_map.2 (h1.imp ?_)
  intro a b hne heq
  apply hne
  unfold hitKey at heq
  simp only [Prod.mk.injEq] at heq
  simp [Prod.mk.injEq, heq.2.1, heq.2.2]

/-- The first key component of every hit of a cantica is that cantica's rank. -/
theorem Cantica.key_fst {c : Cantica} (m : String → Bool) :
    ∀ x ∈ (c.hits m).map hitKey, x.1 = cantica_order c.name := by
  intro x hx
  rw [List.mem_map] at hx
  obtain ⟨h, hh, rfl⟩ := hx
  unfold hitKey
  rw [Cantica.hits_name m h hh]

/-- The four possible candidate lists (main.rs lines 101-106). -/
theorem candidates_eq (d : DivinaCommedia) (f : Option String) :
    candidates d f = [d.inferno] ∨ candidates d f = [d.purgatorio] ∨
    candidates d f = [d.paradiso] ∨
    candidates d f = [d.inferno, d.purgatorio, d.paradiso] := by
  rcases f with _ | s
  · right; right; right; rfl
  · have hrw : candidates d (some s) =
        if s = "inferno" then [d.inferno]
        else if s = "purgatorio" then [d.purgatorio]
        else if s = "paradiso" then [d.paradiso]
        else [d.inferno, d.purgatorio, d.paradiso] := rfl
    rw [hrw]
    split_ifs <;> simp

/-- Under document well-formedness the composite keys of the whole traversal
are distinct, whatever the filter. -/
theorem traversal_key_nodup (m : String → Bool) (d : DivinaCommedia)
    (f : Option String) (hwf : DocWF d) :
    (((candidates d f).flatMap (Cantica.hits m)).map hitKey).Nodup := by
  obtain ⟨hni, hnp, hnpa, hwi, hwp, hwpa⟩ := hwf
  have hone : ∀ c : Cantica, CanticaWF c → ((c.hits m).map hitKey).Nodup := by
    intro c hc
    exact key_nodup_of_pair _ (Cantica.hits_pair_nodup hc m)
  rcases candidates_eq d f with h | h | h | h <;> rw [h] <;>
    simp only [List.flatMap_cons, List.flatMap_nil, List.append_nil, List.map_append]
  · exact hone _ hwi
  · exact hone _ hwp
  · exact hone _ hwpa
  · have hfi : ∀ x ∈ (d.inferno.hits m).map hitKey, x.1 = 0 := by
      intro x hx; rw [Cantica.key_fst m x hx, hni]; rfl
    have hfp : ∀ x ∈ (d.purgatorio.hits m).map hitKey, x.1 = 1 := by
      intro x hx; rw [Cantica.key_fst m x hx, hnp]; rfl
    have hfpa : ∀ x ∈ (d.paradiso.hits m).map hitKey, x.1 = 2 := by
      intro x hx; rw [Cantica.key_fst m x hx, hnpa]; rfl
    rw [List.nodup_append]
    refine ⟨hone _ hwi, ?_, ?_⟩
    · rw [List.nodup_append]
      refine ⟨hone _ hwp, hone _ hwpa, ?_⟩
      intro x hxp hxpa
      have := hfp x hxp
      have := hfpa x hxpa
      omega
    · intro x hxi hx
      rw [List.mem_append] at hx
      have h0 := hfi x hxi
      rcases hx with hx | hx
      · have := hfp x hx; omega
      · have := hfpa x hx; omega

/-- A non-strictly sorted hit list with distinct composite keys is strictly
sorted. -/
theorem pairwise_lt_of_sorted_nodup (L : List Hit)
    (hs : List.Sorted hitKeyLE L) (hn : (L.map hitKey).Nodup) :
    L.Pairwise hitKeyLT := by
  have h1 : L.Pairwise (fun a b => hitKey a ≠ hitKey b) := List.pairwise_map.1 hn
  refine (hs.and h1).imp ?_
  intro a b hab
  obtain ⟨hle, hne⟩ := hab
  unfold hitKeyLE at hle
  unfold hitKeyLT
  have hkne : ¬ (cantica_order a.cantica = cantica_order b.cantica ∧
      a.canto = b.canto ∧ a.line = b.line) := by
    intro hkey
    apply hne
    unfold hitKey
    simp [Prod.mk.injEq, hkey.1, hkey.2.1, hkey.2.2]
  omega

/-- Whatever the matcher, filter and well-formed document, the sorted search
pipeline returns hits strictly increasing in the composite key. -/
theorem searchWith_pairwise (m : String → Bool) (f : Option String)
    (d : DivinaCommedia) (hwf : DocWF d) :
    (d.searchWith m f).Pairwise hitKeyLT := by
  have hsorted : List.Sorted hitKeyLE (d.searchWith m f) :=
    List.sorted_insertionSort hitKeyLE _
  have hperm : (d.searchWith m f).Perm ((candidates d f).flatMap (Cantica.hits m)) :=
    List.perm_insertionSort hitKeyLE _
  have hnd : ((d.searchWith m f).map hitKey).Nodup :=
    (hperm.map hitKey).nodup_iff.2 (traversal_key_nodup m d f hwf)
  exact pairwise_lt_of_sorted_nodup _ hsorted hnd

/-! ### Concrete documents for witnesses and counterexamples -/

/-- A small well-formed document (one Inferno canto, two verses). -/
def docTest : DivinaCommedia :=
  { inferno :=
      { name := "Inferno"
        cantos := [(1,
          { number := 1
            roman_numeral := "I"
            verses :=
              [ { line_number := 1, text := "Nel mezzo del cammin di nostra vita" }
              , { line_number := 2, text := "mi ritrovai per una selva oscura" } ] })] }
    purgatorio := { name := "Purgatorio", cantos := [] }
    paradiso := { name := "Paradiso", cantos := [] } }

/-- A document whose single verse contains a regex metacharacter in its text. -/
def docParen : DivinaCommedia :=
  { inferno :=
      { name := "Inferno"
        cantos := [(1,
          { number := 1
            roman_numeral := "I"
            verses := [ { line_number := 1, text := "una selva( oscura" } ] })] }
    purgatorio := { name := "Purgatorio", cantos := [] }
    paradiso := { name := "Paradiso", cantos := [] } }

/-- Spec-side selector naming the part a valid filter string denotes;
used only to state which part a filtered hit belongs to. -/
def canticaNamed (d : DivinaCommedia) (part : String) : Cantica :=
  if part = "inferno" then d.inferno
  else if part = "purgatorio" then d.purgatorio
  else if part = "paradiso" then d.paradiso
  else d.inferno

/-- A recognized lowercase filter selects exactly its part. -/
theorem candidates_valid (d : DivinaCommedia) (part : String)
    (h : part = "inferno" ∨ part = "purgatorio" ∨ part = "paradiso") :
    candidates d (some part) = [canticaNamed d part] := by
  rcases h with rfl | rfl | rfl <;> rfl

/-! ### Claim C1 -/

/-- Claim C1, counterexample: `DivinaCommedia::new` constructs a document —
construction is total, there is no failure path — in which no part has a
single section, refuting the claim that every successfully constructed
document has at least one section per part. -/
theorem duca_c1_counterexample :
    ¬ (0 < DivinaCommedia.new.inferno.cantos.length ∧
       0 < DivinaCommedia.new.purgatorio.cantos.length ∧
       0 < DivinaCommedia.new.paradiso.cantos.length) := by decide

/-- Claim C1, amended: document construction never fails and performs no
emptiness check; `new` succeeds with the three fixed part names and zero
sections in every part (exactly what the repository's own
`test_divina_commedia_new` asserts). -/
theorem duca_c1_amended :
    DivinaCommedia.new.inferno.name = "Inferno" ∧
    DivinaCommedia.new.purgatorio.name = "Purgatorio" ∧
    DivinaCommedia.new.paradiso.name = "Paradiso" ∧
    DivinaCommedia.new.inferno.cantos.isEmpty = true ∧
    DivinaCommedia.new.purgatorio.cantos.isEmpty = true ∧
    DivinaCommedia.new.paradiso.cantos.isEmpty = true := by decide

/-! ### Claim C2 -/

/-- Claim C2: for every pattern, every filter and every well-formed document
(three fixed part names, unique section keys indexing their sections, unique
line numbers within a section), the search result is strictly sorted by the
composite key (part rank with Inferno=0, Purgatorio=1, Paradiso=2; then
section number; then line index) — in particular no two returned hits share
all three key components. -/
theorem duca_c2 (pattern : String) (filter : Option String) (d : DivinaCommedia)
    (hwf : DocWF d) : (d.search pattern filter).Pairwise hitKeyLT := by
  unfold DivinaCommedia.search
  cases ducaMatcher pattern with
  | some m => exact searchWith_pairwise m filter d hwf
  | none => exact List.Pairwise.nil

/-- Claim C2, witness at a concrete document and pattern. -/
theorem duca_c2_witness :
    DocWF docTest ∧ (docTest.search "selva" none).Pairwise hitKeyLT :=
  ⟨by decide, duca_c2 "selva" none docTest (by decide)⟩

/-! ### Claim C3 -/

/-- Claim C3: for every input pattern — valid regex or not — the two-stage
compilation produces a matcher (the escaped fallback always lexes), so
`search` always returns the result of the sorted traversal and never takes
the panic branch. -/
theorem duca_c3 (pattern : String) (filter : Option String) (d : DivinaCommedia) :
    ∃ m, ducaMatcher pattern = some m ∧ d.search pattern filter = d.searchWith m filter := by
  obtain ⟨m, hm⟩ := ducaMatcher_total pattern
  refine ⟨m, hm, ?_⟩
  unfold DivinaCommedia.search
  rw [hm]

/-! ### Claim C4 -/

/-- Claim C4, counterexample: the patterns "SELVA(" and "selva(" differ only
in letter case and both fail to compile as regexes (unbalanced group), so
both take the literal fallback — which omits the `(?i)` flag (main.rs line
97) and therefore matches case-sensitively: on a document whose verse
contains "selva(" the two searches return different results. -/
theorem duca_c4_counterexample :
    docParen.search "SELVA(" none ≠ docParen.search "selva(" none := by decide

/-- Claim C4, amended: search is case-insensitive for patterns whose
case-insensitive regex compilation succeeds — in particular
`search "AMOR"` and `search "amor"` agree on every document and filter —
but a pattern routed through the literal fallback is matched
case-sensitively, because the fallback compilation omits the `(?i)` flag. -/
theorem duca_c4_amended (f : Option String) (d : DivinaCommedia) :
    d.search "AMOR" f = d.search "amor" f := by
  have h1 : ducaMatcher "AMOR" = some (litMatcher true "AMOR".data) := rfl
  have h2 : ducaMatcher "amor" = some (litMatcher true "amor".data) := rfl
  have hm : litMatcher true "AMOR".data = litMatcher true "amor".data := by
    funext text
    have hl : "AMOR".data.map Char.toLower = "amor".data.map Char.toLower := by decide
    simp only [litMatcher, if_true, hl]
  unfold DivinaCommedia.search
  rw [h1, h2, hm]

/-! ### Claim C9 -/

/-- Every hit of a validly filtered search carries the selected part's name. -/
theorem searchWith_mem_name (d : DivinaCommedia) (m : String → Bool) (part : String)
    (h : part = "inferno" ∨ part = "purgatorio" ∨ part = "paradiso") :
    ∀ x ∈ d.searchWith m (some part), x.cantica = (canticaNamed d part).name := by
  intro x hx
  unfold DivinaCommedia.searchWith at hx
  rw [candidates_valid d part h] at hx
  have hx2 : x ∈ [canticaNamed d part].flatMap (Cantica.hits m) :=
    (List.perm_insertionSort hitKeyLE _).subset hx
  simp only [List.flatMap_cons, List.flatMap_nil, List.append_nil] at hx2
  exact Cantica.hits_name m x hx2

/-- Claim C9: for every pattern and every valid (lowercase) part name, the
filtered search returns at most as many hits as the unfiltered one, and
every filtered hit belongs to the selected part. -/
theorem duca_c9 (pattern : String) (d : DivinaCommedia) (part : String)
    (h : part = "inferno" ∨ part = "purgatorio" ∨ part = "paradiso") :
    (d.search pattern (some part)).length ≤ (d.search pattern none).length ∧
    ∀ x ∈ d.search pattern (some part), x.cantica = (canticaNamed d part).name := by
  unfold DivinaCommedia.search
  cases hm : ducaMatcher pattern with
  | none => simp
  | some m =>
    constructor
    · have h1 : (d.searchWith m (some part)).length =
          (Cantica.hits m (canticaNamed d part)).length := by
        unfold DivinaCommedia.searchWith
        rw [candidates_valid d part h, (List.perm_insertionSort hitKeyLE _).length_eq]
        simp
      have h2 : (d.searchWith m none).length =
          (Cantica.hits m d.inferno).length + (Cantica.hits m d.purgatorio).length +
            (Cantica.hits m d.paradiso).length := by
        unfold DivinaCommedia.searchWith
        rw [(List.perm_insertionSort hitKeyLE _).length_eq]
        have hc : candidates d none = [d.inferno, d.purgatorio, d.paradiso] := rfl
        rw [hc]
        simp only [List.flatMap_cons, List.flatMap_nil, List.append_nil, List.length_append]
        omega
      rw [h1, h2]
      rcases h with rfl | rfl | rfl
      · show (Cantica.hits m d.inferno).length ≤ _
        omega
      · show (Cantica.hits m d.purgatorio).length ≤ _
        omega
      · show (Cantica.hits m d.paradiso).length ≤ _
        omega
    · exact searchWith_mem_name d m part h

/-- Claim C9, witness at a concrete pattern, document and part. -/
theorem duca_c9_witness :
    ("inferno" = "inferno" ∨ "inferno" = "purgatorio" ∨ "inferno" = "paradiso") ∧
    ((docTest.search "selva" (some "inferno")).length ≤
        (docTest.search "selva" none).length ∧
     ∀ x ∈ docTest.search "selva" (some "inferno"),
        x.cantica = (canticaNamed docTest "inferno").name) :=
  ⟨by decide, duca_c9 "selva" docTest "inferno" (by decide)⟩

/-! ### Claim C10 -/

/-- Claim C10: any filter other than the exact lowercase names "inferno",
"purgatorio", "paradiso" — including differently-cased names — falls into
the catch-all arm of the candidate match, so the filtered search returns
exactly the unfiltered ordered result. -/
theorem duca_c10 (pattern : String) (d : DivinaCommedia) (f : String)
    (h : ¬ (f = "inferno" ∨ f = "purgatorio" ∨ f = "paradiso")) :
    d.search pattern (some f) = d.search pattern none := by
  push_neg at h
  obtain ⟨h1, h2, h3⟩ := h
  have hc : candidates d (some f) = candidates d none := by
    have hrw : candidates d (some f) =
        if f = "inferno" then [d.inferno]
        else if f = "purgatorio" then [d.purgatorio]
        else if f = "paradiso" then [d.paradiso]
        else [d.inferno, d.purgatorio, d.paradiso] := rfl
    rw [hrw, if_neg h1, if_neg h2, if_neg h3]
    rfl
  unfold DivinaCommedia.search DivinaCommedia.searchWith
  cases ducaMatcher pattern with
  | none => rfl
  | some m => rw [hc]

/-- Claim C10, witness: the capitalized filter "Inferno" is not recognized
and the search degrades to the unfiltered one. -/
theorem duca_c10_witness :
    (¬ ("Inferno" = "inferno" ∨ "Inferno" = "purgatorio" ∨ "Inferno" = "paradiso")) ∧
    docTest.search "selva" (some "Inferno") = docTest.search "selva" none :=
  ⟨by decide, duca_c10 "selva" docTest "Inferno" (by decide)⟩

/-! ### The TUI state (tui.rs)

`ListState` (a ratatui type) is modelled by its only observable used in the
source, the selected index (`Option Nat`).  The Rust `String` field
`search_input` is modelled as its character list so that `push` and `pop`
are list operations.  The `SkimMatcherV2` field is abstracted as a function
`String → String → Option Int` (its `fuzzy_match` signature). -/

/-- Mirrors `struct SearchResult` (tui.rs lines 38-45). -/
structure SearchResult where
  cantica : String
  canto : Nat
  line : Nat
  text : String
  score : Int
deriving DecidableEq

/-- Mirrors `enum AppMode` (tui.rs lines 47-52). -/
inductive AppMode where
  | Browse
  | InteractiveSearch
  | ContextView
deriving DecidableEq

/-- Mirrors `struct App` (tui.rs lines 21-36). -/
structure App where
  commedia : DivinaCommedia
  current_cantica : String
  current_canto : Option Nat
  cantica_list_state : Option Nat
  canto_list_state : Option Nat
  verse_scroll : Nat
  search_input : List Char
  search_results : List SearchResult
  filtered_results : List SearchResult
  search_list_state : Option Nat
  mode : AppMode
  fuzzy_matcher : String → String → Option Int
  context_canto : Option (String × Nat)
  context_highlight_line : Option Nat

/-- Mirrors `App::new` (tui.rs lines 55-75); the skim matcher instance is
abstract and passed as a parameter. -/
def App.new (commedia : DivinaCommedia) (fm : String → String → Option Int) : App :=
  { commedia := commedia
    current_cantica := "Inferno"
    current_canto := none
    cantica_list_state := some 0
    canto_list_state := none
    verse_scroll := 0
    search_input := []
    search_results := []
    filtered_results := []
    search_list_state := none
    mode := AppMode.Browse
    fuzzy_matcher := fm
    context_canto := none
    context_highlight_line := none }

/-- Mirrors `App::update_current_cantica` (tui.rs lines 157-164). -/
def App.update_current_cantica (a : App) : App :=
  { a with current_cantica :=
      match a.cantica_list_state with
      | some 0 => "Inferno"
      | some 1 => "Purgatorio"
      | some 2 => "Paradiso"
      | _ => "Inferno" }

/-- Mirrors `App::next_cantica` (tui.rs lines 77-92).  Note: `verse_scroll`
is not touched. -/
def App.next_cantica (a : App) : App :=
  let i := match a.cantica_list_state with
    | some i => if i ≥ 2 then 0 else i + 1
    | none => 0
  let b := App.update_current_cantica { a with cantica_list_state := some i }
  { b with canto_list_state := none, current_canto := none }

/-- Mirrors `App::previous_cantica` (tui.rs lines 94-109).  Note:
`verse_scroll` is not touched. -/
def App.previous_cantica (a : App) : App :=
  let i := match a.cantica_list_state with
    | some i => if i = 0 then 2 else i - 1
    | none => 0
  let b := App.update_current_cantica { a with cantica_list_state := some i }
  { b with canto_list_state := none, current_canto := none }

/-- Mirrors `App::get_current_cantica` (tui.rs lines 178-185). -/
def App.get_current_cantica (a : App) : Cantica :=
  if a.current_cantica = "Inferno" then a.commedia.inferno
  else if a.current_cantica = "Purgatorio" then a.commedia.purgatorio
  else if a.current_cantica = "Paradiso" then a.commedia.paradiso
  else a.commedia.inferno

/-- Mirrors `App::update_current_canto` (tui.rs lines 166-176): resolve the
selected index through the sorted canto-number sequence. -/
def App.update_current_canto (a : App) : App :=
  match a.canto_list_state with
  | some selected =>
    match a.get_current_cantica.sortedCantoNumbers.get? selected with
    | some n => { a with current_canto := some n }
    | none => a
  | none => a

/-- Mirrors `App::next_canto` (tui.rs lines 111-128); `saturating_sub(1)` on
the length is Nat subtraction. -/
def App.next_canto (a : App) : App :=
  let max_cantos := a.get_current_cantica.cantos.length
  let i := match a.canto_list_state with
    | some i => if i ≥ max_cantos - 1 then 0 else i + 1
    | none => 0
  let b := App.update_current_canto { a with canto_list_state := some i }
  { b with verse_scroll := 0 }

/-- Mirrors `App::previous_canto` (tui.rs lines 130-147). -/
def App.previous_canto (a : App) : App :=
  let max_cantos := a.get_current_cantica.cantos.length
  let i := match a.canto_list_state with
    | some i => if i = 0 then max_cantos - 1 else i - 1
    | none => 0
  let b := App.update_current_canto { a with canto_list_state := some i }
  { b with verse_scroll := 0 }

/-- Mirrors `App::scroll_down` (tui.rs lines 149-151): `u16` saturating add. -/
def App.scroll_down (a : App) : App :=
  { a with verse_scroll := min (a.verse_scroll + 1) 65535 }

/-- Mirrors `App::scroll_up` (tui.rs lines 153-155): `u16` saturating sub. -/
def App.scroll_up (a : App) : App :=
  { a with verse_scroll := a.verse_scroll - 1 }

/-- The scored hit list of `App::interactive_search` (tui.rs lines 202-219):
the deterministic unfiltered search, each hit kept iff the fuzzy matcher
accepts it (`filter_map`: a rejected hit is dropped, not scored zero). -/
def App.scoredResults (a : App) : List SearchResult :=
  (a.commedia.search (String.mk a.search_input) none).filterMap (fun h =>
    (a.fuzzy_matcher h.text (String.mk a.search_input)).map (fun s =>
      { cantica := h.cantica, canto := h.canto, line := h.line
        text := h.text, score := s }))

/-- Descending-score comparator of tui.rs line 222 (`b.score.cmp(&a.score)`). -/
def scoreDesc (x y : SearchResult) : Prop := y.score ≤ x.score

instance : DecidableRel scoreDesc := fun x y => by unfold scoreDesc; infer_instance

instance : IsTotal SearchResult scoreDesc :=
  ⟨fun a b => le_total b.score a.score⟩

instance : IsTrans SearchResult scoreDesc :=
  ⟨fun _ _ _ hab hbc => le_trans hbc hab⟩

/-- Mirrors `App::interactive_search` (tui.rs lines 195-234).  The guard is
Rust's `search_input.trim().is_empty()`, i.e. every character is whitespace;
otherwise the scored hits are stably sorted by descending score and
truncated to the top 50. -/
def App.interactive_search (a : App) : App :=
  if a.search_input.all Char.isWhitespace then
    { a with filtered_results := [], search_list_state := none }
  else
    let top := (List.insertionSort scoreDesc a.scoredResults).take 50
    { a with filtered_results := top
             search_list_state := if top.isEmpty then none else some 0 }

/-- Mirrors `App::enter_search_mode` (tui.rs lines 236-241). -/
def App.enter_search_mode (a : App) : App :=
  { a with mode := AppMode.InteractiveSearch, search_input := []
           filtered_results := [], search_list_state := none }

/-- Mirrors `App::enter_context_view` (tui.rs lines 243-252).  The scroll
offset is `result.line.saturating_sub(10) as u16`: Nat subtraction (already
saturating) followed by the 16-bit truncation of the cast. -/
def App.enter_context_view (a : App) : App :=
  match a.search_list_state with
  | some selected =>
    match a.filtered_results.get? selected with
    | some result =>
      { a with context_canto := some (result.cantica, result.canto)
               context_highlight_line := some result.line
               mode := AppMode.ContextView
               verse_scroll := (result.line - 10) % 65536 }
    | none => a
  | none => a

/-- Mirrors `App::exit_context_view` (tui.rs lines 254-258). -/
def App.exit_context_view (a : App) : App :=
  { a with context_canto := none, context_highlight_line := none
           mode := AppMode.InteractiveSearch }

/-- Mirrors `App::clear_search` (tui.rs lines 260-266). -/
def App.clear_search (a : App) : App :=
  { a with search_input := [], search_results := [], filtered_results := []
           search_list_state := none, mode := AppMode.Browse }

/-- Mirrors `App::next_search_result` (tui.rs lines 268-285). -/
def App.next_search_result (a : App) : App :=
  let len := a.filtered_results.length
  if len = 0 then a
  else
    let i := match a.search_list_state with
      | some i => if i ≥ len - 1 then 0 else i + 1
      | none => 0
    { a with search_list_state := some i }

/-- Mirrors `App::previous_search_result` (tui.rs lines 287-304). -/
def App.previous_search_result (a : App) : App :=
  let len := a.filtered_results.length
  if len = 0 then a
  else
    let i := match a.search_list_state with
      | some i => if i = 0 then len - 1 else i - 1
      | none => 0
    { a with search_list_state := some i }

/-- The abstract key events consumed by `run_app` (tui.rs lines 346-398):
the key codes the source distinguishes. -/
inductive Key where
  | char (c : Char)
  | esc
  | enter
  | backspace
  | up
  | down
  | left
  | right
  | other
deriving DecidableEq

/-- One iteration of the `run_app` event loop (tui.rs lines 346-398) on a
key press: `none` models returning from the loop (quit).  Rust `match` arms
over `KeyCode::Char(c)` literals are rendered as equality tests on `c` in
source order. -/
def stepKey (k : Key) (a : App) : Option App :=
  match a.mode with
  | AppMode.Browse =>
    match k with
    | Key.char c =>
      if c = 'q' then none
      else if c = 'h' then some a.previous_cantica
      else if c = 'l' then some a.next_cantica
      else if c = 'j' then some a.next_canto
      else if c = 'k' then some a.previous_canto
      else if c = 'J' then some a.scroll_down
      else if c = 'K' then some a.scroll_up
      else if c = '/' then some a.enter_search_mode
      else some a
    | Key.left => some a.previous_cantica
    | Key.right => some a.next_cantica
    | Key.down => some a.next_canto
    | Key.up => some a.previous_canto
    | Key.enter =>
      some (if a.current_canto = none ∧ a.canto_list_state ≠ none
            then a.update_current_canto else a)
    | _ => some a
  | AppMode.InteractiveSearch =>
    match k with
    | Key.esc => some a.clear_search
    | Key.backspace =>
      some (App.interactive_search { a with search_input := a.search_input.dropLast })
    | Key.down => some a.next_search_result
    | Key.up => some a.previous_search_result
    | Key.enter => some a.enter_context_view
    | Key.char c =>
      if c = 'j' then some a.next_search_result
      else if c = 'k' then some a.previous_search_result
      else some (App.interactive_search { a with search_input := a.search_input ++ [c] })
    | _ => some a
  | AppMode.ContextView =>
    match k with
    | Key.char c =>
      if c = 'q' then some a.exit_context_view
      else if c = 'J' then some a.scroll_down
      else if c = 'K' then some a.scroll_up
      else some a
    | Key.esc => some a.exit_context_view
    | Key.down => some a.scroll_down
    | Key.up => some a.scroll_up
    | _ => some a

/-! ### Frame lemmas for the TUI operations -/

/-- `update_current_canto` changes at most `current_canto`. -/
theorem App.update_current_canto_frame (a : App) :
    a.update_current_canto.mode = a.mode ∧
    a.update_current_canto.search_input = a.search_input ∧
    a.update_current_canto.filtered_results = a.filtered_results ∧
    a.update_current_canto.search_list_state = a.search_list_state := by
  unfold App.update_current_canto
  split
  · split
    · exact ⟨rfl, rfl, rfl, rfl⟩
    · exact ⟨rfl, rfl, rfl, rfl⟩
  · exact ⟨rfl, rfl, rfl, rfl⟩

/-- `next_canto` preserves the mode. -/
theorem App.next_canto_mode (a : App) : a.next_canto.mode = a.mode := by
  unfold App.next_canto
  exact (App.update_current_canto_frame _).1

/-- `previous_canto` preserves the mode. -/
theorem App.previous_canto_mode (a : App) : a.previous_canto.mode = a.mode := by
  unfold App.previous_canto
  exact (App.update_current_canto_frame _).1

/-- `interactive_search` preserves the mode. -/
theorem App.interactive_search_mode (a : App) : a.interactive_search.mode = a.mode := by
  unfold App.interactive_search
  split
  · rfl
  · rfl

/-- `next_search_result` preserves the mode. -/
theorem App.next_search_result_mode (a : App) :
    a.next_search_result.mode = a.mode := by
  unfold App.next_search_result
  by_cases h : a.filtered_results.length = 0
  · simp [h]
  · simp [h]

/-- `previous_search_result` preserves the mode. -/
theorem App.previous_search_result_mode (a : App) :
    a.previous_search_result.mode = a.mode := by
  unfold App.previous_search_result
  by_cases h : a.filtered_results.length = 0
  · simp [h]
  · simp [h]

/-- `enter_context_view` either enters ContextView or leaves the state
untouched. -/
theorem App.enter_context_view_cases (a : App) :
    a.enter_context_view.mode = AppMode.ContextView ∨ a.enter_context_view = a := by
  unfold App.enter_context_view
  split
  · split
    · exact Or.inl rfl
    · exact Or.inr rfl
  · exact Or.inr rfl

/-! ### Concrete TUI states for witnesses and counterexamples -/

/-- A concrete stand-in for the abstract fuzzy matcher, used only to build
closed witness states. -/
def fuzzyLen : String → String → Option Int :=
  fun text query => if query.length ≤ text.length then some (Int.ofNat text.length) else none

/-- The freshly started TUI on the small test document. -/
def appBase : App := App.new docTest fuzzyLen

/-- A browse state with a nonzero scroll offset (reachable by scrolling). -/
def appScroll : App := { appBase with verse_scroll := 5 }

def hit25 : SearchResult :=
  { cantica := "Inferno", canto := 1, line := 25, text := "x", score := 1 }

def hit3 : SearchResult :=
  { cantica := "Inferno", canto := 1, line := 3, text := "x", score := 1 }

def hitHuge : SearchResult :=
  { cantica := "Inferno", canto := 1, line := 65547, text := "x", score := 1 }

/-- A live-search state with the hit at line 25 selected. -/
def appHit25 : App :=
  { appBase with mode := AppMode.InteractiveSearch
                 filtered_results := [hit25]
                 search_list_state := some 0 }

/-- A live-search state with the hit at line 3 selected. -/
def appHit3 : App :=
  { appBase with mode := AppMode.InteractiveSearch
                 filtered_results := [hit3]
                 search_list_state := some 0 }

/-- A live-search state with a hit at a line index exceeding the `u16`
scroll range. -/
def appHuge : App :=
  { appBase with mode := AppMode.InteractiveSearch
                 filtered_results := [hitHuge]
                 search_list_state := some 0 }

/-- A context-view state with live-search state to be preserved. -/
def appCtx : App :=
  { appBase with mode := AppMode.ContextView
                 context_canto := some ("Inferno", 1)
                 context_highlight_line := some 2
                 search_input := "selva".data
                 filtered_results := [hit25]
                 search_list_state := some 0 }

/-! ### Claim C5 -/

/-- Claim C5, counterexample: from a state with scroll offset 5,
`next_cantica` does not reset the scroll offset to 0 — the source
(tui.rs lines 77-92) never touches `verse_scroll`. -/
theorem duca_c5_counterexample :
    ¬ (appScroll.next_cantica.verse_scroll = 0) := by decide

/-- Claim C5, amended: `next_cantica` / `previous_cantica` move the selected
part cyclically over the three parts (wrapping at both ends) and reset the
selected section (both the list selection and the resolved current section)
to none, but leave the scroll offset unchanged (it is reset by section
navigation instead). -/
theorem duca_c5_amended (a : App) (i : Nat) (hsel : a.cantica_list_state = some i)
    (hi : i < 3) :
    a.next_cantica.cantica_list_state = some ((i + 1) % 3) ∧
    a.previous_cantica.cantica_list_state = some ((i + 2) % 3) ∧
    a.next_cantica.canto_list_state = none ∧
    a.next_cantica.current_canto = none ∧
    a.previous_cantica.canto_list_state = none ∧
    a.previous_cantica.current_canto = none ∧
    a.next_cantica.verse_scroll = a.verse_scroll ∧
    a.previous_cantica.verse_scroll = a.verse_scroll := by
  interval_cases i <;>
    simp [App.next_cantica, App.previous_cantica, App.update_current_cantica, hsel]

/-- Claim C5, witness at the initial state (part selection 0). -/
theorem duca_c5_witness :
    (appBase.cantica_list_state = some 0 ∧ 0 < 3) ∧
    (appBase.next_cantica.cantica_list_state = some ((0 + 1) % 3) ∧
     appBase.previous_cantica.cantica_list_state = some ((0 + 2) % 3) ∧
     appBase.next_cantica.canto_list_state = none ∧
     appBase.next_cantica.current_canto = none ∧
     appBase.previous_cantica.canto_list_state = none ∧
     appBase.previous_cantica.current_canto = none ∧
     appBase.next_cantica.verse_scroll = appBase.verse_scroll ∧
     appBase.previous_cantica.verse_scroll = appBase.verse_scroll) :=
  ⟨⟨by decide, by decide⟩, duca_c5_amended appBase 0 (by decide) (by decide)⟩

/-! ### Claim C8 -/

/-- Claim C8, amended: confirming a selected hit enters ContextView
targeting the hit's part and section with the hit's line highlighted; the
scroll offset is `(line_index - 10)` saturated at zero and then truncated to
16 bits by the `as u16` cast — it equals `max(0, line_index - 10)` exactly
when that value fits in a `u16`. -/
theorem duca_c8_amended (a : App) (sel : Nat) (r : SearchResult)
    (hsel : a.search_list_state = some sel)
    (hget : a.filtered_results.get? sel = some r) :
    a.enter_context_view.mode = AppMode.ContextView ∧
    a.enter_context_view.context_canto = some (r.cantica, r.canto) ∧
    a.enter_context_view.context_highlight_line = some r.line ∧
    a.enter_context_view.verse_scroll = (r.line - 10) % 65536 ∧
    (r.line - 10 < 65536 → a.enter_context_view.verse_scroll = r.line - 10) := by
  have hres : a.enter_context_view =
      { a with context_canto := some (r.cantica, r.canto)
               context_highlight_line := some r.line
               mode := AppMode.ContextView
               verse_scroll := (r.line - 10) % 65536 } := by
    unfold App.enter_context_view
    simp only [hsel, hget]
  rw [hres]
  exact ⟨rfl, rfl, rfl, rfl, fun hlt => Nat.mod_eq_of_lt hlt⟩

/-- Claim C8, counterexample: at line index 65547 the `as u16` cast
truncates, so the scroll offset is 1, not `max(0, 65547 - 10) = 65537` as
the claim states. -/
theorem duca_c8_counterexample :
    ¬ (appHuge.enter_context_view.verse_scroll = 65547 - 10) := by decide

/-- Claim C8, witness: a hit at line 25 yields scroll offset 15 and a hit at
line 3 yields scroll offset 0. -/
theorem duca_c8_witness :
    (appHit25.search_list_state = some 0 ∧
     appHit25.filtered_results.get? 0 = some hit25) ∧
    appHit25.enter_context_view.verse_scroll = 15 ∧
    appHit25.enter_context_view.mode = AppMode.ContextView ∧
    (appHit3.search_list_state = some 0 ∧
     appHit3.filtered_results.get? 0 = some hit3) ∧
    appHit3.enter_context_view.verse_scroll = 0 := by
  refine ⟨⟨by decide, by decide⟩, ?_, ?_, ⟨by decide, by decide⟩, ?_⟩
  · exact (duca_c8_amended appHit25 0 hit25 (by decide) (by decide)).2.2.2.2 (by decide)
  · exact (duca_c8_amended appHit25 0 hit25 (by decide) (by decide)).1
  · exact (duca_c8_amended appHit3 0 hit3 (by decide) (by decide)).2.2.2.2 (by decide)

/-! ### Claim C7 -/

/-- In ContextView, a key press leaves the state unchanged, exits the
context view, or scrolls. -/
theorem stepKey_context_step (a : App) (k : Key) (hC : a.mode = AppMode.ContextView) :
    stepKey k a = some a ∨ stepKey k a = some a.exit_context_view ∨
    stepKey k a = some a.scroll_down ∨ stepKey k a = some a.scroll_up := by
  unfold stepKey
  rw [hC]
  cases k with
  | char c =>
    by_cases h1 : c = 'q'
    · simp [h1]
    · by_cases h2 : c = 'J'
      · simp [h1, h2]
      · by_cases h3 : c = 'K'
        · simp [h1, h2, h3]
        · simp [h1, h2, h3]
  | esc => simp
  | enter => simp
  | backspace => simp
  | up => simp
  | down => simp
  | left => simp
  | right => simp
  | other => simp

/-- In ContextView, the cancel keys (Esc, q) run `exit_context_view`. -/
theorem stepKey_context_cancel (a : App) (k : Key) (hC : a.mode = AppMode.ContextView)
    (hk : k = Key.esc ∨ k = Key.char 'q') :
    stepKey k a = some a.exit_context_view := by
  unfold stepKey
  rw [hC]
  rcases hk with rfl | rfl
  · rfl
  · simp

/-- From Browse, no key press ever puts the TUI directly in ContextView. -/
theorem stepKey_browse_no_context (a : App) (k : Key) (b : App)
    (hB : a.mode = AppMode.Browse) (hstep : stepKey k a = some b) :
    b.mode = AppMode.Browse ∨ b.mode = AppMode.InteractiveSearch := by
  unfold stepKey at hstep
  rw [hB] at hstep
  dsimp only at hstep
  cases k with
  | char c =>
    dsimp only at hstep
    split_ifs at hstep
    · injection hstep with h; subst h; left; show a.mode = AppMode.Browse; exact hB
    · injection hstep with h; subst h; left; show a.mode = AppMode.Browse; exact hB
    · injection hstep with h; subst h; left
      rw [App.next_canto_mode]; exact hB
    · injection hstep with h; subst h; left
      rw [App.previous_canto_mode]; exact hB
    · injection hstep with h; subst h; left; show a.mode = AppMode.Browse; exact hB
    · injection hstep with h; subst h; left; show a.mode = AppMode.Browse; exact hB
    · injection hstep with h; subst h; right; rfl
    · injection hstep with h; subst h; left; exact hB
  | left =>
    injection hstep with h; subst h; left; show a.mode = AppMode.Browse; exact hB
  | right =>
    injection hstep with h; subst h; left; show a.mode = AppMode.Browse; exact hB
  | down =>
    injection hstep with h; subst h; left
    rw [App.next_canto_mode]; exact hB
  | up =>
    injection hstep with h; subst h; left
    rw [App.previous_canto_mode]; exact hB
  | enter =>
    injection hstep with h; subst h; left
    by_cases hcond : (a.current_canto = none ∧ a.canto_list_state ≠ none)
    · rw [if_pos hcond, (App.update_current_canto_frame a).1]; exact hB
    · rw [if_neg hcond]; exact hB
  | esc => injection hstep with h; subst h; left; exact hB
  | backspace => injection hstep with h; subst h; left; exact hB
  | other => injection hstep with h; subst h; left; exact hB

/-- Claim C7: whenever the event loop steps from a state `a` to a state `b`:
in ContextView, every key preserves the live-search state (query, ranked
hits, hit selection) without re-running search, and leads only to
ContextView or back to LiveSearch; the cancel keys (Esc, q) always return to
LiveSearch (never Browse); and ContextView is only ever entered from
LiveSearch. -/
theorem duca_c7 (a : App) (k : Key) (b : App) (hstep : stepKey k a = some b) :
    (a.mode = AppMode.ContextView →
      b.search_input = a.search_input ∧ b.filtered_results = a.filtered_results ∧
      b.search_list_state = a.search_list_state ∧
      (b.mode = AppMode.ContextView ∨ b.mode = AppMode.InteractiveSearch)) ∧
    (a.mode = AppMode.ContextView → (k = Key.esc ∨ k = Key.char 'q') →
      b.mode = AppMode.InteractiveSearch) ∧
    (a.mode ≠ AppMode.ContextView → b.mode = AppMode.ContextView →
      a.mode = AppMode.InteractiveSearch) := by
  refine ⟨?_, ?_, ?_⟩
  · intro hC
    rcases stepKey_context_step a k hC with h | h | h | h
    · rw [h] at hstep; injection hstep with hb; subst hb
      exact ⟨rfl, rfl, rfl, Or.inl hC⟩
    · rw [h] at hstep; injection hstep with hb; subst hb
      exact ⟨rfl, rfl, rfl, Or.inr rfl⟩
    · rw [h] at hstep; injection hstep with hb; subst hb
      exact ⟨rfl, rfl, rfl, Or.inl hC⟩
    · rw [h] at hstep; injection hstep with hb; subst hb
      exact ⟨rfl, rfl, rfl, Or.inl hC⟩
  · intro hC hk
    have h := stepKey_context_cancel a k hC hk
    rw [h] at hstep
    injection hstep with hb
    subst hb
    rfl
  · intro hne hbC
    cases hm : a.mode with
    | Browse =>
      exfalso
      rcases stepKey_browse_no_context a k b hm hstep with h | h
      · rw [h] at hbC; exact AppMode.noConfusion hbC
      · rw [h] at hbC; exact AppMode.noConfusion hbC
    | InteractiveSearch => rfl
    | ContextView => exact absurd hm hne

/-- Claim C7, witness: pressing Esc in a concrete ContextView state. -/
theorem duca_c7_witness :
    (appCtx.mode = AppMode.ContextView →
      appCtx.exit_context_view.search_input = appCtx.search_input ∧
      appCtx.exit_context_view.filtered_results = appCtx.filtered_results ∧
      appCtx.exit_context_view.search_list_state = appCtx.search_list_state ∧
      (appCtx.exit_context_view.mode = AppMode.ContextView ∨
       appCtx.exit_context_view.mode = AppMode.InteractiveSearch)) ∧
    (appCtx.mode = AppMode.ContextView → (Key.esc = Key.esc ∨ Key.esc = Key.char 'q') →
      appCtx.exit_context_view.mode = AppMode.InteractiveSearch) ∧
    (appCtx.mode ≠ AppMode.ContextView →
      appCtx.exit_context_view.mode = AppMode.ContextView →
      appCtx.mode = AppMode.InteractiveSearch) :=
  duca_c7 appCtx Key.esc appCtx.exit_context_view rfl

/-! ### Claim C6 -/

/-- Claim C6: for a query with a non-whitespace character (Rust's
`trim().is_empty()` guard), the ranked list shown by `interactive_search`
is sorted by descending fuzzy score, holds at most 50 entries, contains
only hits accepted by the fuzzy matcher with their scores (a rejected hit
is dropped by the `filter_map`, not scored zero), and — whenever the
accepted set itself has at most 50 entries — contains every accepted hit. -/
theorem duca_c6 (a : App) (h : a.search_input.all Char.isWhitespace = false) :
    List.Sorted scoreDesc a.interactive_search.filtered_results ∧
    a.interactive_search.filtered_results.length ≤ 50 ∧
    (∀ x ∈ a.interactive_search.filtered_results, x ∈ a.scoredResults) ∧
    (a.scoredResults.length ≤ 50 →
      ∀ x ∈ a.scoredResults, x ∈ a.interactive_search.filtered_results) := by
  have hr : a.interactive_search.filtered_results =
      (List.insertionSort scoreDesc a.scoredResults).take 50 := by
    unfold App.interactive_search
    rw [h]
    rfl
  refine ⟨?_, ?_, ?_, ?_⟩
  · rw [hr]
    exact (List.sorted_insertionSort scoreDesc a.scoredResults).sublist
      (List.take_sublist 50 _)
  · rw [hr]
    simp
  · intro x hx
    rw [hr] at hx
    exact (List.perm_insertionSort scoreDesc a.scoredResults).subset
      ((List.take_sublist 50 _).subset hx)
  · intro hlen x hx
    rw [hr]
    have hl2 : (List.insertionSort scoreDesc a.scoredResults).length ≤ 50 := by
      rw [(List.perm_insertionSort scoreDesc a.scoredResults).length_eq]
      exact hlen
    rw [List.take_of_length_le hl2]
    exact (List.perm_insertionSort scoreDesc a.scoredResults).symm.subset hx

/-- A live-search state with the concrete query "selva". -/
def appQuery : App :=
  { appBase with mode := AppMode.InteractiveSearch
                 search_input := "selva".data }

/-- Claim C6, witness at a concrete live-search state. -/
theorem duca_c6_witness :
    (appQuery.search_input.all Char.isWhitespace = false) ∧
    (List.Sorted scoreDesc appQuery.interactive_search.filtered_results ∧
     appQuery.interactive_search.filtered_results.length ≤ 50 ∧
     (∀ x ∈ appQuery.interactive_search.filtered_results, x ∈ appQuery.scoredResults) ∧
     (appQuery.scoredResults.length ≤ 50 →
       ∀ x ∈ appQuery.scoredResults, x ∈ appQuery.interactive_search.filtered_results)) :=
  ⟨by decide, duca_c6 appQuery (by decide)⟩
